import Mathlib

/-!
CDP-Server: data-access layer and ingestion gateway.

A shallow embedding of `src/cdp/db.go` (query builder and `DataAccessLayer`)
and `src/cdp/gateway.go` (`handleEvent`), followed by the properties
established about them.

Conventions of the embedding.

* Go `string` is `String`; a Go `[]string` / `[]interface{}` is a `List`.
* Loop counters and lengths are `Nat`: every counter stays within
  `0 .. len(values)`, far below the range of a 64-bit `int`.
* `fmt.Sprintf("$%d", k)` for `k ≥ 0` is `"$"` followed by the decimal
  rendering of `k`, which is `Nat.repr k`.
* The relational store (`database/sql`), the JSON decoder and the HTTP response
  writer are external collaborators: they are taken as parameters or recorded
  as the sequence of calls made on them.
-/

namespace CDP

/-! ## Query builder (`db.go`, lines 83-111) -/

/-- The Go expression `fmt.Sprintf("$%d", k)` for a non-negative `k`. -/
def sprintfDollar (k : Nat) : String :=
  "$" ++ Nat.repr k

/-- The Go call `fmt.Sprintf(format)` with no operands, on a format that holds
no `%` verb: the text comes back unchanged.  Every format `joinString` passes
is a join of `$k` texts with `", "` and holds no `%`. -/
def sprintfVerbatim (format : String) : String :=
  format

/-- The Go function `joinString` (lines 109-111): the joined texts, wrapped in
a pair of single quotes. -/
def joinString (strs : List String) (separator : String) : String :=
  "'" ++ sprintfVerbatim (separator.intercalate strs) ++ "'"

/-- The loop `for i := 0; i < numValues; i++ { arr[i] = fmt.Sprintf("$%d", i+1) }`
shared by `buildInsertQuery` and `buildUpdateQuery`.  The first argument bounds
the number of iterations still to run; the loop is entered with `numValues`
of them, which is exactly what it needs. -/
def fillLoop (numValues : Nat) : Nat → Nat → List String → List String
  | 0, _, arr => arr
  | fuel + 1, i, arr =>
    if i < numValues then
      fillLoop numValues fuel (i + 1) (arr.set i (sprintfDollar (i + 1)))
    else arr

/-- The slice `make([]string, numValues)` after the filling loop. -/
def placeholderSlice (numValues : Nat) : List String :=
  fillLoop numValues numValues 0 (List.replicate numValues "")

/-- The Go function `buildInsertQuery` (lines 83-92).  The values are used
through `len(values)` only, whatever their type. -/
def buildInsertQuery {α : Type} (tableName : String) (values : List α) : String :=
  let numValues := values.length
  let valuePlaceholders := placeholderSlice numValues
  "INSERT INTO " ++ tableName ++ " VALUES (" ++ joinString valuePlaceholders ", " ++ ")"

/-- The Go function `buildSelectQuery` (lines 94-96). -/
def buildSelectQuery (tableName : String) : String :=
  "SELECT * FROM " ++ tableName ++ " WHERE id = $1"

/-- The Go function `buildUpdateQuery` (lines 98-107). -/
def buildUpdateQuery {α : Type} (tableName : String) (values : List α) : String :=
  let numValues := values.length
  let setClauses := placeholderSlice numValues
  "UPDATE " ++ tableName ++ " SET " ++ joinString setClauses ", " ++ " WHERE id = $"
    ++ Nat.repr numValues

/-- The statement text `DeleteData` formats inline (line 67). -/
def buildDeleteQuery (tableName : String) : String :=
  "DELETE FROM " ++ tableName ++ " WHERE id = $1"

/-! ## The store boundary (`database/sql`, external) -/

/-- A Go `error` value, identified by the text `err.Error()` returns. -/
structure Error where
  text : String
deriving DecidableEq, Repr

/-- The Go struct `Event` (`gateway.go`, lines 13-17). -/
structure Event where
  ID : Int
  Name : String
  Payload : String
deriving DecidableEq, Repr

/-- The values that travel as `interface{}` in this program: integers, texts,
and the `Event` struct that `handleEvent` passes whole. -/
inductive Value where
  | int (n : Int)
  | str (s : String)
  | event (e : Event)
deriving DecidableEq, Repr

/-- A `sql.Result`: what a successful `Exec` hands back. -/
structure Result where
  lastInsertId : Int
  rowsAffected : Int
deriving DecidableEq, Repr

/-- What the store is asked to do, in the order it is asked. -/
inductive StoreEvent where
  | prepareFailed (query : String)
  | prepared (handle : Nat) (query : String)
  | executed (handle : Nat) (args : List Value)
  | queried (handle : Nat) (args : List Value)
  | closed (handle : Nat)
deriving DecidableEq, Repr

/-- The behaviour of the store, an external collaborator: how it answers
`Prepare`, `Exec` and `QueryRow(..).Scan(..)`, each given everything it was
asked so far.  `prepare` answers `none` when it accepts the text. -/
structure Store where
  prepare : List StoreEvent → String → Option Error
  exec : List StoreEvent → String → List Value → Except Error Result
  scan : List StoreEvent → String → List Value → List Value → Option Error × List Value

/-- The state of the connection `*sql.DB`: the number of prepared statements
that are open, and the history of requests. -/
structure Conn where
  openStmts : Nat
  log : List StoreEvent
deriving DecidableEq, Repr

/-- A prepared statement `*sql.Stmt`. -/
structure Stmt where
  handle : Nat
  query : String
deriving DecidableEq, Repr

/-- The call `db.Prepare(query)`.  A statement that is prepared gets a handle
no earlier statement has (the length of the history), and is open. -/
def Store.Prepare (db : Store) (c : Conn) (query : String) : Except Error Stmt × Conn :=
  match db.prepare c.log query with
  | some err => (.error err, { c with log := c.log ++ [.prepareFailed query] })
  | none =>
    (.ok { handle := c.log.length, query := query },
      { openStmts := c.openStmts + 1, log := c.log ++ [.prepared c.log.length query] })

/-- The call `stmt.Exec(args...)`. -/
def Stmt.Exec (stmt : Stmt) (db : Store) (c : Conn) (args : List Value) :
    Except Error Result × Conn :=
  (db.exec c.log stmt.query args, { c with log := c.log ++ [.executed stmt.handle args] })

/-- The call `stmt.QueryRow(args...).Scan(dest...)`: the error, and what the
destinations hold afterwards. -/
def Stmt.QueryRowScan (stmt : Stmt) (db : Store) (c : Conn) (args : List Value)
    (dest : List Value) : (Option Error × List Value) × Conn :=
  (db.scan c.log stmt.query args dest, { c with log := c.log ++ [.queried stmt.handle args] })

/-- The call `stmt.Close()`; the error it may return is dropped by `defer`. -/
def Stmt.Close (stmt : Stmt) (c : Conn) : Conn :=
  { openStmts := c.openStmts - 1, log := c.log ++ [.closed stmt.handle] }

/-! ## Data access layer (`db.go`, lines 12-81) -/

/-- The Go struct `DataAccessLayer`. -/
structure DataAccessLayer where
  db : Store

/-- The Go function `NewDataAccessLayer`. -/
def NewDataAccessLayer (db : Store) : DataAccessLayer :=
  { db := db }

/-- The Go method `CreateData` (lines 20-35).  `defer stmt.Close()` runs on
every return that follows a successful `Prepare`. -/
def DataAccessLayer.CreateData (dal : DataAccessLayer) (c : Conn) (tableName : String)
    (values : List Value) : Option Error × Conn :=
  let query := buildInsertQuery tableName values
  match dal.db.Prepare c query with
  | (.error err, c1) => (some err, c1)
  | (.ok stmt, c1) =>
    match stmt.Exec dal.db c1 values with
    | (.error err, c2) => (some err, stmt.Close c2)
    | (.ok _, c2) => (none, stmt.Close c2)

/-- The Go method `ReadData` (lines 37-47): the error returned, what the
destinations hold afterwards, and the connection. -/
def DataAccessLayer.ReadData (dal : DataAccessLayer) (c : Conn) (tableName : String)
    (id : Int) (dest : List Value) : (Option Error × List Value) × Conn :=
  let query := buildSelectQuery tableName
  match dal.db.Prepare c query with
  | (.error err, c1) => ((some err, dest), c1)
  | (.ok stmt, c1) =>
    match stmt.QueryRowScan dal.db c1 [Value.int id] dest with
    | (r, c2) => (r, stmt.Close c2)

/-- The Go method `UpdateData` (lines 49-64). -/
def DataAccessLayer.UpdateData (dal : DataAccessLayer) (c : Conn) (tableName : String)
    (values : List Value) : Option Error × Conn :=
  let query := buildUpdateQuery tableName values
  match dal.db.Prepare c query with
  | (.error err, c1) => (some err, c1)
  | (.ok stmt, c1) =>
    match stmt.Exec dal.db c1 values with
    | (.error err, c2) => (some err, stmt.Close c2)
    | (.ok _, c2) => (none, stmt.Close c2)

/-- The Go method `DeleteData` (lines 66-81). -/
def DataAccessLayer.DeleteData (dal : DataAccessLayer) (c : Conn) (tableName : String)
    (id : Int) : Option Error × Conn :=
  let query := buildDeleteQuery tableName
  match dal.db.Prepare c query with
  | (.error err, c1) => (some err, c1)
  | (.ok stmt, c1) =>
    match stmt.Exec dal.db c1 [Value.int id] with
    | (.error err, c2) => (some err, stmt.Close c2)
    | (.ok _, c2) => (none, stmt.Close c2)

/-! ## Ingestion gateway (`gateway.go`, lines 31-50) -/

/-- The calls a handler makes on its `http.ResponseWriter`. -/
inductive WriterCall where
  | httpError (text : String) (code : Nat)
  | writeHeader (code : Nat)
  | write (data : String)
deriving DecidableEq, Repr

/-- The constant `http.StatusOK`. -/
def StatusOK : Nat := 200

/-- The constant `http.StatusBadRequest`. -/
def StatusBadRequest : Nat := 400

/-- The constant `http.StatusInternalServerError`. -/
def StatusInternalServerError : Nat := 500

/-- The Go function `handleEvent` (lines 31-50).  `decode` stands for
`json.NewDecoder(r.Body).Decode(&event)` on the request body, and `dal` for
the ambient `dataaccess.DataAccessLayer` the handler calls on a connection in
state `c`.  Line 41 passes the table name `"events"` and the decoded `event`
itself, as the only variadic value of `CreateData`. -/
def handleEvent (decode : String → Except Error Event) (dal : DataAccessLayer) (c : Conn)
    (body : String) : List WriterCall × Conn :=
  match decode body with
  | .error err => ([.httpError err.text StatusBadRequest], c)
  | .ok event =>
    match dal.CreateData c "events" [Value.event event] with
    | (some err, c1) => ([.httpError err.text StatusInternalServerError], c1)
    | (none, c1) =>
      ([.writeHeader StatusOK, .write "Event received and stored successfully"], c1)

/-- The HTTP status a sequence of writer calls answers with: that of the first
call that fixes it. -/
def responseStatus : List WriterCall → Option Nat
  | [] => none
  | .httpError _ code :: _ => some code
  | .writeHeader code :: _ => some code
  | .write _ :: _ => some StatusOK

/-! ## Reading a statement text back -/

/-- The number a run of decimal digits denotes. -/
def digitsValue (ds : List Char) : Nat :=
  ds.foldl (fun acc c => acc * 10 + (c.toNat - 48)) 0

/-- The numbered markers `$k` of a text, in the order they occur: every `$`
that a decimal digit follows, with the number its run of digits denotes. -/
def markerNumbers : List Char → List Nat
  | [] => []
  | c :: cs =>
    match c == '$', cs.takeWhile Char.isDigit with
    | true, d :: ds => digitsValue (d :: ds) :: markerNumbers cs
    | _, _ => markerNumbers cs

/-- A store that accepts every statement and executes it with no row affected. -/
def zeroRowStore : Store where
  prepare := fun _ _ => none
  exec := fun _ _ _ => .ok { lastInsertId := 0, rowsAffected := 0 }
  scan := fun _ _ _ dest => (none, dest)

/-- A store that rejects every statement text. -/
def rejectingStore : Store where
  prepare := fun _ query => some { text := "pq: cannot prepare " ++ query }
  exec := fun _ _ _ => .ok { lastInsertId := 0, rowsAffected := 1 }
  scan := fun _ _ _ dest => (none, dest)

/-- A store that prepares every statement and fails to run it. -/
def failingStore : Store where
  prepare := fun _ _ => none
  exec := fun _ _ _ => .error { text := "pq: connection lost" }
  scan := fun _ _ _ dest => (some { text := "sql: no rows in result set" }, dest)

/-- A store that rejects every text starting with `UPDATE`, accepts the rest
and executes it with no row affected. -/
def updateRejectingStore : Store where
  prepare := fun _ query =>
    if query.data.take 6 = "UPDATE".data then
      some { text := "pq: syntax error at or near \"'$1, $2'\"" }
    else none
  exec := fun _ _ _ => .ok { lastInsertId := 0, rowsAffected := 0 }
  scan := fun _ _ _ dest => (none, dest)

/-- A connection on which nothing has happened yet. -/
def freshConn : Conn :=
  { openStmts := 0, log := [] }

/-- The insert text as the specification writes it, for a table and a number
of values: `INSERT INTO <table> VALUES ($1, …, $n)`, the placeholders directly
inside the parentheses. -/
def specInsertText (tableName : String) (n : Nat) : String :=
  "INSERT INTO " ++ tableName ++ " VALUES ("
    ++ ", ".intercalate ((List.range' 1 n).map sprintfDollar) ++ ")"

/-- The texts submitted to `Prepare` in a history, accepted or not. -/
def preparedTexts : List StoreEvent → List String
  | [] => []
  | .prepareFailed query :: es => query :: preparedTexts es
  | .prepared _ query :: es => query :: preparedTexts es
  | _ :: es => preparedTexts es

/-- The decoder's answer on the two bodies of the gateway scenario: the event
of the well-formed body, a syntax error on anything else. -/
def sampleDecode (body : String) : Except Error Event :=
  if body = "\x7b\"id\":1,\"name\":\"click\",\"payload\":\"x\"\x7d" then
    .ok { ID := 1, Name := "click", Payload := "x" }
  else .error { text := "invalid character 'o' in literal null (expecting 'u')" }

/-- The error an `Exec` answer carries, `none` for a result. -/
def execError : Except Error Result → Option Error
  | .error err => some err
  | .ok _ => none

/-- The number of times a history runs the statement of a handle, through
`Exec` or through `QueryRow`. -/
def runsOf (handle : Nat) : List StoreEvent → Nat
  | [] => 0
  | .executed h _ :: es => (if h = handle then 1 else 0) + runsOf handle es
  | .queried h _ :: es => (if h = handle then 1 else 0) + runsOf handle es
  | _ :: es => runsOf handle es

/-- The number of times a history closes the statement of a handle. -/
def closesOf (handle : Nat) : List StoreEvent → Nat
  | [] => 0
  | .closed h :: es => (if h = handle then 1 else 0) + closesOf handle es
  | _ :: es => closesOf handle es

/-- The handles of the statements a history prepares. -/
def preparedHandles : List StoreEvent → List Nat
  | [] => []
  | .prepared h _ :: es => h :: preparedHandles es
  | _ :: es => preparedHandles es

/-- The number of `Exec` and `QueryRow` requests in a history. -/
def runRequests : List StoreEvent → Nat
  | [] => 0
  | .executed _ _ :: es => 1 + runRequests es
  | .queried _ _ :: es => 1 + runRequests es
  | _ :: es => runRequests es

/-- The propagation policy for one operation: `returned` is what the operation
returns, `prepareAnswer` and `runError` are the store's answers to its prepare
step and to its execute or scan step, `newEvents` is what the operation asked
of the store.  The operation returns nil exactly when both steps succeed,
returns an error exactly when one of them fails, that error unchanged, and
asks for no execution after a failed prepare. -/
def PropagatesStoreErrors (returned prepareAnswer runError : Option Error)
    (newEvents : List StoreEvent) : Prop :=
  (returned = none ↔ prepareAnswer = none ∧ runError = none)
    ∧ (∀ err, returned = some err ↔
        prepareAnswer = some err ∨ (prepareAnswer = none ∧ runError = some err))
    ∧ runRequests newEvents = (if prepareAnswer = none then 1 else 0)

/-- The resource discipline for one operation, from the connection before it
to the connection after it: as many statements are open after as before, the
history only grows, a statement is prepared exactly when the store accepts the
text, and every statement the operation prepared is run exactly once and
closed exactly once by it. -/
def ScopesItsStatement (before after : Conn) (prepareAnswer : Option Error) : Prop :=
  after.openStmts = before.openStmts
    ∧ ∃ newEvents : List StoreEvent, after.log = before.log ++ newEvents
      ∧ preparedHandles newEvents = (if prepareAnswer = none then [before.log.length] else [])
      ∧ ∀ h ∈ preparedHandles newEvents, runsOf h newEvents = 1 ∧ closesOf h newEvents = 1

/-- The characters `strings.Join` puts after the first text: each further
text with the separator before it. -/
def joinedTail (sep : List Char) : List String → List Char
  | [] => []
  | a :: as => sep ++ a.data ++ joinedTail sep as

/-- The body `CreateData`, `UpdateData` and `DeleteData` have in common, for a
statement text and its arguments. -/
def runStatement (dal : DataAccessLayer) (c : Conn) (query : String) (args : List Value) :
    Option Error × Conn :=
  match dal.db.Prepare c query with
  | (.error err, c1) => (some err, c1)
  | (.ok stmt, c1) =>
    match stmt.Exec dal.db c1 args with
    | (.error err, c2) => (some err, stmt.Close c2)
    | (.ok _, c2) => (none, stmt.Close c2)

/-! ## The filling loop -/

theorem fillLoop_eq (numValues : Nat) :
    ∀ (fuel i : Nat) (arr : List String), i + fuel = numValues → arr.length = numValues →
      fillLoop numValues fuel i arr
        = arr.take i ++ (List.range' (i + 1) fuel).map sprintfDollar := by
  intro fuel
  induction fuel with
  | zero =>
    intro i arr hi hlen
    have : arr.length ≤ i := by omega
    simp [fillLoop, List.take_of_length_le this]
  | succ fuel ih =>
    intro i arr hi hlen
    have hlt : i < numValues := by omega
    have hia : i < arr.length := by omega
    rw [fillLoop, if_pos hlt, ih (i + 1) _ (by omega) (by simpa using hlen)]
    rw [List.range'_succ, List.map_cons, List.take_succ]
    have htake : (arr.set i (sprintfDollar (i + 1))).take i = arr.take i := by
      rw [List.set_take, List.set_eq_of_length_le (by simp)]
    simp [List.getElem?_set_self hia, htake]

theorem placeholderSlice_eq (numValues : Nat) :
    placeholderSlice numValues = (List.range' 1 numValues).map sprintfDollar := by
  unfold placeholderSlice
  rw [fillLoop_eq numValues numValues 0 _ (by simp) (by simp)]
  simp

/-! ## Decimal rendering -/

theorem digitChar_isDigit (m : Nat) (h : m < 10) : (Nat.digitChar m).isDigit = true := by
  interval_cases m <;> decide

theorem digitChar_value (m : Nat) (h : m < 10) : (Nat.digitChar m).toNat - 48 = m := by
  interval_cases m <;> decide

theorem toDigitsCore_isDigit :
    ∀ (fuel n : Nat) (ds : List Char), (∀ c ∈ ds, c.isDigit = true) →
      ∀ c ∈ Nat.toDigitsCore 10 fuel n ds, c.isDigit = true := by
  intro fuel
  induction fuel with
  | zero => intro n ds hds c hc; exact hds c (by simpa [Nat.toDigitsCore] using hc)
  | succ fuel ih =>
    intro n ds hds c hc
    have hd : ∀ c ∈ Nat.digitChar (n % 10) :: ds, c.isDigit = true := by
      intro c hc
      rcases List.mem_cons.1 hc with h | h
      · rw [h]; exact digitChar_isDigit _ (Nat.mod_lt _ (by decide))
      · exact hds c h
    rw [Nat.toDigitsCore] at hc
    by_cases h0 : n / 10 = 0
    · simp only [h0, if_true] at hc
      exact hd c hc
    · simp only [h0, if_false] at hc
      exact ih _ _ hd c hc

theorem toDigitsCore_ne_nil :
    ∀ (fuel n : Nat) (ds : List Char), (fuel ≠ 0 ∨ ds ≠ []) →
      Nat.toDigitsCore 10 fuel n ds ≠ [] := by
  intro fuel
  induction fuel with
  | zero => intro n ds h; simpa [Nat.toDigitsCore] using h
  | succ fuel ih =>
    intro n ds _
    rw [Nat.toDigitsCore]
    by_cases h0 : n / 10 = 0
    · simp [h0]
    · simp only [h0, if_false]
      exact ih _ _ (Or.inr (by simp))

theorem foldl_digits_shift (ds : List Char) :
    ∀ a : Nat, ds.foldl (fun acc c => acc * 10 + (c.toNat - 48)) a
      = a * 10 ^ ds.length + digitsValue ds := by
  induction ds with
  | nil => intro a; simp [digitsValue]
  | cons d ds ih =>
    intro a
    simp only [digitsValue, List.foldl_cons, List.length_cons]
    rw [ih (a * 10 + (d.toNat - 48)), ih (0 * 10 + (d.toNat - 48))]
    ring

theorem digitsValue_cons (d : Char) (ds : List Char) :
    digitsValue (d :: ds) = (d.toNat - 48) * 10 ^ ds.length + digitsValue ds := by
  have h := foldl_digits_shift ds (0 * 10 + (d.toNat - 48))
  simp only [digitsValue, List.foldl_cons] at h ⊢
  rw [h]; ring

theorem digitsValue_toDigitsCore :
    ∀ (fuel n : Nat) (ds : List Char), n < fuel →
      digitsValue (Nat.toDigitsCore 10 fuel n ds) = n * 10 ^ ds.length + digitsValue ds := by
  intro fuel
  induction fuel with
  | zero => intro n ds h; omega
  | succ fuel ih =>
    intro n ds hn
    rw [Nat.toDigitsCore]
    have hmod : n % 10 < 10 := Nat.mod_lt _ (by decide)
    by_cases h0 : n / 10 = 0
    · simp only [h0, if_true]
      rw [digitsValue_cons, digitChar_value _ hmod]
      have : n % 10 = n := by omega
      rw [this]
    · simp only [h0, if_false]
      rw [ih (n / 10) _ (by omega), digitsValue_cons, digitChar_value _ hmod, List.length_cons]
      have hn10 : n = 10 * (n / 10) + n % 10 := (Nat.div_add_mod n 10).symm
      generalize n / 10 = q at hn10 ⊢
      generalize n % 10 = r at hn10 ⊢
      subst hn10
      ring

/-- The decimal rendering of a number is a non-empty run of digits that
denotes the number. -/
theorem repr_digits (k : Nat) :
    (∀ c ∈ (Nat.repr k).data, c.isDigit = true) ∧ (Nat.repr k).data ≠ [] ∧
      digitsValue (Nat.repr k).data = k := by
  refine ⟨?_, ?_, ?_⟩
  · exact toDigitsCore_isDigit _ _ _ (by simp)
  · exact toDigitsCore_ne_nil _ _ _ (Or.inl (by simp))
  · have h := digitsValue_toDigitsCore (k + 1) k [] (by omega)
    simpa [digitsValue] using h

/-! ## Markers of a concatenation -/

theorem takeWhile_append_stop (p : Char → Bool) (ys : List Char) (h : ys.takeWhile p = []) :
    ∀ xs : List Char, (xs ++ ys).takeWhile p = xs.takeWhile p := by
  intro xs
  induction xs with
  | nil => simpa using h
  | cons x xs ih =>
    simp only [List.cons_append, List.takeWhile_cons]
    cases p x <;> simp [ih]

theorem takeWhile_all (p : Char → Bool) :
    ∀ xs : List Char, (∀ c ∈ xs, p c = true) → xs.takeWhile p = xs := by
  intro xs
  induction xs with
  | nil => intro _; rfl
  | cons x xs ih =>
    intro h
    rw [List.takeWhile_cons, h x (by simp), if_pos rfl, ih (fun c hc => h c (by simp [hc]))]

theorem markerNumbers_cons (c : Char) (cs : List Char) :
    markerNumbers (c :: cs)
      = match c == '$', cs.takeWhile Char.isDigit with
        | true, d :: ds => digitsValue (d :: ds) :: markerNumbers cs
        | _, _ => markerNumbers cs := by
  rw [markerNumbers]

theorem markerNumbers_append (ys : List Char) (h : ys.takeWhile Char.isDigit = []) :
    ∀ xs : List Char, markerNumbers (xs ++ ys) = markerNumbers xs ++ markerNumbers ys := by
  intro xs
  induction xs with
  | nil => simp [markerNumbers]
  | cons x xs ih =>
    rw [List.cons_append, markerNumbers_cons, markerNumbers_cons,
      takeWhile_append_stop _ ys h xs, ih]
    cases x == '$' <;> cases xs.takeWhile Char.isDigit <;> simp

theorem isDigit_ne_dollar (c : Char) (h : c.isDigit = true) : (c == '$') = false := by
  rcases hc : c == '$' with _ | _
  · rfl
  · have : c = '$' := by simpa using hc
    subst this
    exact absurd h (by decide)

theorem markerNumbers_digits :
    ∀ ds : List Char, (∀ c ∈ ds, c.isDigit = true) → markerNumbers ds = [] := by
  intro ds
  induction ds with
  | nil => intro _; rfl
  | cons d ds ih =>
    intro h
    simp only [markerNumbers, isDigit_ne_dollar d (h d (by simp))]
    exact ih (fun c hc => h c (by simp [hc]))

/-- The characters of the text `fmt.Sprintf("$%d", k)`. -/
theorem sprintfDollar_data (k : Nat) : (sprintfDollar k).data = '$' :: (Nat.repr k).data := by
  simp [sprintfDollar, String.data_append]

theorem markerNumbers_sprintfDollar (k : Nat) (rest : List Char)
    (h : rest.takeWhile Char.isDigit = []) :
    markerNumbers ((sprintfDollar k).data ++ rest) = k :: markerNumbers rest := by
  obtain ⟨hdig, hne, hval⟩ := repr_digits k
  rw [sprintfDollar_data, List.cons_append, markerNumbers,
    takeWhile_append_stop _ rest h, takeWhile_all _ _ hdig]
  obtain ⟨d, ds, hds⟩ := List.exists_cons_of_ne_nil hne
  rw [hds] at hval hdig ⊢
  simp only [beq_self_eq_true, hval]
  rw [markerNumbers_append rest h, markerNumbers_digits _ hdig, List.nil_append]

theorem intercalate_go_data (sep : String) :
    ∀ (strs : List String) (acc : String),
      (String.intercalate.go acc sep strs).data = acc.data ++ joinedTail sep.data strs := by
  intro strs
  induction strs with
  | nil => intro acc; simp [String.intercalate.go, joinedTail]
  | cons a as ih =>
    intro acc
    simp [String.intercalate.go, joinedTail, ih, String.data_append]

theorem markerNumbers_joinedTail (rest : List Char) (h : rest.takeWhile Char.isDigit = []) :
    ∀ ks : List Nat,
      markerNumbers (joinedTail [',', ' '] (ks.map sprintfDollar) ++ rest)
        = ks ++ markerNumbers rest := by
  intro ks
  induction ks with
  | nil => simp [joinedTail]
  | cons k ks ih =>
    have hstop : (joinedTail [',', ' '] (ks.map sprintfDollar) ++ rest).takeWhile Char.isDigit
        = [] := by
      cases ks with
      | nil => simpa [joinedTail] using h
      | cons k2 ks2 => simp [joinedTail, List.takeWhile_cons]
    simp only [List.map_cons, joinedTail, List.append_assoc, List.cons_append, List.nil_append]
    rw [markerNumbers, markerNumbers]
    simp only [show ((',' : Char) == '$') = false by decide,
      show ((' ' : Char) == '$') = false by decide]
    rw [markerNumbers_sprintfDollar k _ hstop, ih]

/-- The markers of the joined placeholders `$k1, $k2, ...` are `k1, k2, ...`. -/
theorem markerNumbers_join (rest : List Char) (h : rest.takeWhile Char.isDigit = [])
    (ks : List Nat) :
    markerNumbers ((", ".intercalate (ks.map sprintfDollar)).data ++ rest)
      = ks ++ markerNumbers rest := by
  cases ks with
  | nil => simp [String.intercalate]
  | cons k ks =>
    have hstop : (joinedTail [',', ' '] (ks.map sprintfDollar) ++ rest).takeWhile Char.isDigit
        = [] := by
      cases ks with
      | nil => simpa [joinedTail] using h
      | cons k2 ks2 => simp [joinedTail, List.takeWhile_cons]
    simp only [List.map_cons, String.intercalate, intercalate_go_data, List.append_assoc]
    rw [markerNumbers_sprintfDollar k _ hstop]
    rw [markerNumbers_joinedTail rest h, List.cons_append]

theorem markerNumbers_skip :
    ∀ xs : List Char, (∀ c ∈ xs, (c == '$') = false) →
      ∀ ys : List Char, markerNumbers (xs ++ ys) = markerNumbers ys := by
  intro xs
  induction xs with
  | nil => intro _ ys; rfl
  | cons x xs ih =>
    intro h ys
    rw [List.cons_append, markerNumbers_cons, h x (by simp)]
    exact ih (fun c hc => h c (by simp [hc])) ys

theorem sprintfDollar_chars (k : Nat) :
    ∀ c ∈ (sprintfDollar k).data, c = '$' ∨ c.isDigit = true := by
  intro c hc
  rw [sprintfDollar_data] at hc
  rcases List.mem_cons.1 hc with h | h
  · exact Or.inl h
  · exact Or.inr ((repr_digits k).1 c h)

theorem joinedTail_chars :
    ∀ (ks : List Nat), ∀ c ∈ joinedTail [',', ' '] (ks.map sprintfDollar),
      c = ',' ∨ c = ' ' ∨ c = '$' ∨ c.isDigit = true := by
  intro ks
  induction ks with
  | nil => intro c hc; simp [joinedTail] at hc
  | cons k ks ih =>
    intro c hc
    simp only [List.map_cons, joinedTail, List.mem_append, List.mem_cons,
      List.mem_singleton, List.not_mem_nil, or_false] at hc
    rcases hc with ((h | h) | h) | h
    · exact Or.inl h
    · exact Or.inr (Or.inl h)
    · exact Or.inr (Or.inr (sprintfDollar_chars k c h))
    · exact ih c h

/-- The format `joinString` hands to `fmt.Sprintf` holds no `%`, whatever the
number of values: `fmt.Sprintf` returns it unchanged. -/
theorem joined_placeholders_hold_no_verb (numValues : Nat) :
    ∀ c ∈ (", ".intercalate (placeholderSlice numValues)).data, c ≠ '%' := by
  have hchar : ∀ c : Char, c = ',' ∨ c = ' ' ∨ c = '$' ∨ c.isDigit = true → c ≠ '%' := by
    intro c hc hp
    subst hp
    revert hc
    decide
  intro c hc
  rw [placeholderSlice_eq] at hc
  cases hks : List.range' 1 numValues with
  | nil => simp [hks, String.intercalate] at hc
  | cons k ks =>
    rw [hks] at hc
    simp only [List.map_cons, String.intercalate, intercalate_go_data, List.mem_append] at hc
    rcases hc with h | h
    · exact hchar c (Or.inr (Or.inr (sprintfDollar_chars k c h)))
    · exact hchar c (joinedTail_chars ks c h)

/-! ## What the builders return -/

/-- The characters of the text `buildInsertQuery` returns. -/
theorem buildInsertQuery_data {α : Type} (tableName : String) (values : List α) :
    (buildInsertQuery tableName values).data
      = "INSERT INTO ".data ++ (tableName.data ++ (" VALUES ('".data
          ++ ((", ".intercalate ((List.range' 1 values.length).map sprintfDollar)).data
            ++ "')".data))) := by
  simp [buildInsertQuery, joinString, sprintfVerbatim, placeholderSlice_eq, String.data_append]

/-- The characters of the text `buildUpdateQuery` returns. -/
theorem buildUpdateQuery_data {α : Type} (tableName : String) (values : List α) :
    (buildUpdateQuery tableName values).data
      = "UPDATE ".data ++ (tableName.data ++ (" SET '".data
          ++ ((", ".intercalate ((List.range' 1 values.length).map sprintfDollar)).data
            ++ ("' WHERE id = ".data ++ (sprintfDollar values.length).data)))) := by
  simp [buildUpdateQuery, joinString, sprintfVerbatim, placeholderSlice_eq, String.data_append,
    sprintfDollar]

/-- The markers of an insert text: those of the table name, then `1 .. n`. -/
theorem markerNumbers_buildInsertQuery {α : Type} (tableName : String) (values : List α) :
    markerNumbers (buildInsertQuery tableName values).data
      = markerNumbers tableName.data ++ List.range' 1 values.length := by
  rw [buildInsertQuery_data, markerNumbers_skip _ (by decide),
    markerNumbers_append _ (by rfl), markerNumbers_skip _ (by decide),
    markerNumbers_join _ (by rfl)]
  simp [markerNumbers]

/-- The markers of an update text: those of the table name, then `1 .. n` in
the SET list, then `n` in the WHERE clause. -/
theorem markerNumbers_buildUpdateQuery {α : Type} (tableName : String) (values : List α) :
    markerNumbers (buildUpdateQuery tableName values).data
      = markerNumbers tableName.data ++ (List.range' 1 values.length ++ [values.length]) := by
  have hlast : markerNumbers ("' WHERE id = ".data ++ (sprintfDollar values.length).data)
      = [values.length] := by
    rw [markerNumbers_skip _ (by decide)]
    have h := markerNumbers_sprintfDollar values.length [] rfl
    simpa [markerNumbers] using h
  rw [buildUpdateQuery_data, markerNumbers_skip _ (by decide),
    markerNumbers_append _ (by rfl), markerNumbers_skip _ (by decide),
    markerNumbers_join _ (by rfl), hlast]

theorem preparedTexts_append (xs ys : List StoreEvent) :
    preparedTexts (xs ++ ys) = preparedTexts xs ++ preparedTexts ys := by
  induction xs with
  | nil => rfl
  | cons x xs ih => cases x <;> simp [preparedTexts, ih]

/-! ## Claims about the query builder -/

/-- C1 (defect): on the values of the repository's own usage example,
`buildInsertQuery` returns `INSERT INTO users VALUES ('$1, $2')`: `joinString`
wraps the placeholder list in single quotes, so the text is not the
`INSERT INTO users VALUES ($1, $2)` the specification prescribes. -/
theorem buildInsertQuery_quotes_placeholders :
    buildInsertQuery "users" [Value.int 0, Value.str "John Doe"]
        = "INSERT INTO users VALUES ('$1, $2')"
      ∧ specInsertText "users" 2 = "INSERT INTO users VALUES ($1, $2)"
      ∧ buildInsertQuery "users" [Value.int 0, Value.str "John Doe"]
        ≠ specInsertText "users" 2 := by
  decide

/-- C2 (as stated, refuted): for the table name `events ($2)` and one value the
text holds the markers `$2` and `$1`, not exactly the run `$1 .. $1`. -/
theorem buildInsertQuery_table_marker_counterexample :
    markerNumbers (buildInsertQuery "events ($2)" [Value.int 7]).data = [2, 1]
      ∧ markerNumbers (buildInsertQuery "events ($2)" [Value.int 7]).data
        ≠ List.range' 1 [Value.int 7].length := by
  decide

/-- C2 (amended): for every table name that itself holds no `$k` marker and
every list of `n` values, the `$k` markers occurring in the text of
`buildInsertQuery` are exactly `$1 .. $n` in increasing order: `n` of them,
pairwise distinct. -/
theorem buildInsertQuery_markers {α : Type} (tableName : String) (values : List α)
    (hT : markerNumbers tableName.data = []) :
    markerNumbers (buildInsertQuery tableName values).data = List.range' 1 values.length
      ∧ (markerNumbers (buildInsertQuery tableName values).data).length = values.length
      ∧ (markerNumbers (buildInsertQuery tableName values).data).Nodup := by
  have h : markerNumbers (buildInsertQuery tableName values).data
      = List.range' 1 values.length := by
    rw [markerNumbers_buildInsertQuery, hT, List.nil_append]
  rw [h]
  exact ⟨rfl, by simp, List.nodup_range' 1 values.length⟩

/-- The amended C2 at the table `events` and the three values of an event. -/
theorem buildInsertQuery_markers_witness :
    markerNumbers "events".data = []
      ∧ markerNumbers (buildInsertQuery "events"
          [Value.int 7, Value.str "login", Value.str "{}"]).data
        = List.range' 1 [Value.int 7, Value.str "login", Value.str "{}"].length :=
  ⟨by decide,
    (buildInsertQuery_markers "events" [Value.int 7, Value.str "login", Value.str "{}"]
      (by decide)).1⟩

/-- C3 (defect): on the values of the repository's own usage example,
`buildUpdateQuery` returns `UPDATE users SET '$1, $2' WHERE id = $2`: the SET
list runs over all `n = 2` values, the identifier `$2` included, instead of
the `n - 1 = 1` values before it. -/
theorem buildUpdateQuery_set_list_includes_identifier :
    buildUpdateQuery "users" [Value.int 0, Value.str "Jane Doe"]
        = "UPDATE users SET '$1, $2' WHERE id = $2"
      ∧ markerNumbers (buildUpdateQuery "users" [Value.int 0, Value.str "Jane Doe"]).data
        = [1, 2, 2]
      ∧ placeholderSlice [Value.int 0, Value.str "Jane Doe"].length = ["$1", "$2"] := by
  decide

/-- C10: the statement texts do not depend on the values.  Two value lists of
the same length, of whatever types, give the same insert text and the same
update text, and the text `ReadData` submits to the store is
`buildSelectQuery tableName` for every identifier and every destination list. -/
theorem query_text_independent_of_values {α β : Type} (tableName : String)
    (vs : List α) (ws : List β) (h : vs.length = ws.length) :
    buildInsertQuery tableName vs = buildInsertQuery tableName ws
      ∧ buildUpdateQuery tableName vs = buildUpdateQuery tableName ws
      ∧ ∀ (dal : DataAccessLayer) (c : Conn) (id : Int) (dest : List Value),
          preparedTexts (dal.ReadData c tableName id dest).2.log
            = preparedTexts c.log ++ [buildSelectQuery tableName] := by
  refine ⟨?_, ?_, ?_⟩
  · simp only [buildInsertQuery, h]
  · simp only [buildUpdateQuery, h]
  · intro dal c id dest
    simp only [DataAccessLayer.ReadData, Store.Prepare, Stmt.QueryRowScan, Stmt.Close]
    cases dal.db.prepare c.log (buildSelectQuery tableName) <;>
      simp [preparedTexts_append, preparedTexts]

/-- The statement of C10 at two lists of two values, of different types. -/
theorem query_text_independent_of_values_witness :
    [Value.int 7, Value.str "login"].length = ["a", "b"].length
      ∧ buildInsertQuery "events" [Value.int 7, Value.str "login"]
        = buildInsertQuery "events" ["a", "b"] :=
  ⟨by decide,
    (query_text_independent_of_values "events" [Value.int 7, Value.str "login"] ["a", "b"]
      (by decide)).1⟩

/-! ## What the operations of the data access layer do -/

theorem CreateData_eq (dal : DataAccessLayer) (c : Conn) (tableName : String)
    (values : List Value) :
    dal.CreateData c tableName values
      = runStatement dal c (buildInsertQuery tableName values) values := rfl

theorem UpdateData_eq (dal : DataAccessLayer) (c : Conn) (tableName : String)
    (values : List Value) :
    dal.UpdateData c tableName values
      = runStatement dal c (buildUpdateQuery tableName values) values := rfl

theorem DeleteData_eq (dal : DataAccessLayer) (c : Conn) (tableName : String) (id : Int) :
    dal.DeleteData c tableName id
      = runStatement dal c (buildDeleteQuery tableName) [Value.int id] := rfl

/-- What `runStatement` returns and leaves behind, by the store's answers. -/
theorem runStatement_eq (dal : DataAccessLayer) (c : Conn) (query : String)
    (args : List Value) :
    runStatement dal c query args
      = match dal.db.prepare c.log query with
        | some err => (some err, { c with log := c.log ++ [.prepareFailed query] })
        | none =>
          (execError (dal.db.exec (c.log ++ [.prepared c.log.length query]) query args),
            { openStmts := c.openStmts,
              log := c.log ++ [.prepared c.log.length query, .executed c.log.length args,
                .closed c.log.length] }) := by
  simp only [runStatement, Store.Prepare, Stmt.Exec, Stmt.Close]
  cases dal.db.prepare c.log query with
  | some err => rfl
  | none =>
    simp only
    cases dal.db.exec (c.log ++ [.prepared c.log.length query]) query args <;>
      simp [execError]

/-- What `ReadData` returns and leaves behind, by the store's answers. -/
theorem ReadData_eq (dal : DataAccessLayer) (c : Conn) (tableName : String) (id : Int)
    (dest : List Value) :
    dal.ReadData c tableName id dest
      = match dal.db.prepare c.log (buildSelectQuery tableName) with
        | some err =>
          ((some err, dest),
            { c with log := c.log ++ [.prepareFailed (buildSelectQuery tableName)] })
        | none =>
          (dal.db.scan (c.log ++ [.prepared c.log.length (buildSelectQuery tableName)])
              (buildSelectQuery tableName) [Value.int id] dest,
            { openStmts := c.openStmts,
              log := c.log ++ [.prepared c.log.length (buildSelectQuery tableName),
                .queried c.log.length [Value.int id], .closed c.log.length] }) := by
  simp only [DataAccessLayer.ReadData, Store.Prepare, Stmt.QueryRowScan, Stmt.Close]
  cases dal.db.prepare c.log (buildSelectQuery tableName) with
  | some err => rfl
  | none => simp

theorem runStatement_propagates (dal : DataAccessLayer) (c : Conn) (query : String)
    (args : List Value) :
    PropagatesStoreErrors (runStatement dal c query args).1 (dal.db.prepare c.log query)
      (execError (dal.db.exec (c.log ++ [.prepared c.log.length query]) query args))
      ((runStatement dal c query args).2.log.drop c.log.length) := by
  rw [runStatement_eq]
  cases dal.db.prepare c.log query with
  | some err => simp [PropagatesStoreErrors, runRequests, eq_comm]
  | none => simp [PropagatesStoreErrors, runRequests]

theorem ReadData_propagates (dal : DataAccessLayer) (c : Conn) (tableName : String)
    (id : Int) (dest : List Value) :
    PropagatesStoreErrors (dal.ReadData c tableName id dest).1.1
      (dal.db.prepare c.log (buildSelectQuery tableName))
      (dal.db.scan (c.log ++ [.prepared c.log.length (buildSelectQuery tableName)])
        (buildSelectQuery tableName) [Value.int id] dest).1
      ((dal.ReadData c tableName id dest).2.log.drop c.log.length) := by
  rw [ReadData_eq]
  cases dal.db.prepare c.log (buildSelectQuery tableName) with
  | some err => simp [PropagatesStoreErrors, runRequests, eq_comm]
  | none => simp [PropagatesStoreErrors, runRequests]

theorem runStatement_scoped (dal : DataAccessLayer) (c : Conn) (query : String)
    (args : List Value) :
    ScopesItsStatement c (runStatement dal c query args).2 (dal.db.prepare c.log query) := by
  rw [runStatement_eq]
  cases dal.db.prepare c.log query with
  | some err =>
    exact ⟨rfl, [.prepareFailed query], rfl, by simp [preparedHandles], by simp [preparedHandles]⟩
  | none =>
    exact ⟨rfl, _, rfl, by simp [preparedHandles],
      by simp [preparedHandles, runsOf, closesOf]⟩

theorem ReadData_scoped (dal : DataAccessLayer) (c : Conn) (tableName : String)
    (id : Int) (dest : List Value) :
    ScopesItsStatement c (dal.ReadData c tableName id dest).2
      (dal.db.prepare c.log (buildSelectQuery tableName)) := by
  rw [ReadData_eq]
  cases dal.db.prepare c.log (buildSelectQuery tableName) with
  | some err =>
    exact ⟨rfl, [.prepareFailed (buildSelectQuery tableName)], rfl,
      by simp [preparedHandles], by simp [preparedHandles]⟩
  | none =>
    exact ⟨rfl, _, rfl, by simp [preparedHandles],
      by simp [preparedHandles, runsOf, closesOf]⟩

/-- On a store that rejects the text, `CreateData` returns the store's error and
nothing is executed or left open. -/
theorem CreateData_on_rejecting_store :
    (NewDataAccessLayer rejectingStore).CreateData freshConn "events" [Value.int 7]
      = (some { text := "pq: cannot prepare INSERT INTO events VALUES ('$1')" },
          { openStmts := 0, log := [.prepareFailed "INSERT INTO events VALUES ('$1')"] }) := by
  decide

/-- On a store that fails to scan, `ReadData` returns the scan error after
closing the statement it prepared. -/
theorem ReadData_on_failing_store :
    (NewDataAccessLayer failingStore).ReadData freshConn "events" 7 [Value.int 0]
      = ((some { text := "sql: no rows in result set" }, [Value.int 0]),
          { openStmts := 0,
            log := [.prepared 0 "SELECT * FROM events WHERE id = $1",
              .queried 0 [Value.int 7], .closed 0] }) := by
  decide

/-! ## Claims about the data access layer -/

/-- C6: each of `CreateData`, `ReadData`, `UpdateData` and `DeleteData` follows
the propagation policy over any store: it returns nil exactly when the store's
prepare step and its execute (or scan) step both succeed, it returns an error
exactly when one of them fails, that error is the store's error unchanged, and
nothing is executed after a failed prepare. -/
theorem dal_propagates_store_errors (dal : DataAccessLayer) (c : Conn) (tableName : String)
    (values : List Value) (id : Int) (dest : List Value) :
    PropagatesStoreErrors (dal.CreateData c tableName values).1
        (dal.db.prepare c.log (buildInsertQuery tableName values))
        (execError (dal.db.exec
          (c.log ++ [.prepared c.log.length (buildInsertQuery tableName values)])
          (buildInsertQuery tableName values) values))
        ((dal.CreateData c tableName values).2.log.drop c.log.length)
      ∧ PropagatesStoreErrors (dal.ReadData c tableName id dest).1.1
        (dal.db.prepare c.log (buildSelectQuery tableName))
        (dal.db.scan (c.log ++ [.prepared c.log.length (buildSelectQuery tableName)])
          (buildSelectQuery tableName) [Value.int id] dest).1
        ((dal.ReadData c tableName id dest).2.log.drop c.log.length)
      ∧ PropagatesStoreErrors (dal.UpdateData c tableName values).1
        (dal.db.prepare c.log (buildUpdateQuery tableName values))
        (execError (dal.db.exec
          (c.log ++ [.prepared c.log.length (buildUpdateQuery tableName values)])
          (buildUpdateQuery tableName values) values))
        ((dal.UpdateData c tableName values).2.log.drop c.log.length)
      ∧ PropagatesStoreErrors (dal.DeleteData c tableName id).1
        (dal.db.prepare c.log (buildDeleteQuery tableName))
        (execError (dal.db.exec
          (c.log ++ [.prepared c.log.length (buildDeleteQuery tableName)])
          (buildDeleteQuery tableName) [Value.int id]))
        ((dal.DeleteData c tableName id).2.log.drop c.log.length) :=
  ⟨CreateData_eq dal c tableName values ▸ runStatement_propagates dal c _ values,
    ReadData_propagates dal c tableName id dest,
    UpdateData_eq dal c tableName values ▸ runStatement_propagates dal c _ values,
    DeleteData_eq dal c tableName id ▸ runStatement_propagates dal c _ [Value.int id]⟩

/-- C7: over any store and for every outcome of the call, each of `CreateData`,
`ReadData`, `UpdateData` and `DeleteData` leaves as many prepared statements
open as it found, and runs exactly once and closes exactly once the statement
it prepared. -/
theorem dal_scopes_its_statements (dal : DataAccessLayer) (c : Conn) (tableName : String)
    (values : List Value) (id : Int) (dest : List Value) :
    ScopesItsStatement c (dal.CreateData c tableName values).2
        (dal.db.prepare c.log (buildInsertQuery tableName values))
      ∧ ScopesItsStatement c (dal.ReadData c tableName id dest).2
        (dal.db.prepare c.log (buildSelectQuery tableName))
      ∧ ScopesItsStatement c (dal.UpdateData c tableName values).2
        (dal.db.prepare c.log (buildUpdateQuery tableName values))
      ∧ ScopesItsStatement c (dal.DeleteData c tableName id).2
        (dal.db.prepare c.log (buildDeleteQuery tableName)) :=
  ⟨CreateData_eq dal c tableName values ▸ runStatement_scoped dal c _ values,
    ReadData_scoped dal c tableName id dest,
    UpdateData_eq dal c tableName values ▸ runStatement_scoped dal c _ values,
    DeleteData_eq dal c tableName id ▸ runStatement_scoped dal c _ [Value.int id]⟩

/-- C8 (as stated, refuted): on a store that accepts every statement,
`UpdateData` with no value returns nil, after preparing, executing and closing
the statement `UPDATE users SET '' WHERE id = $0`. -/
theorem UpdateData_no_values_counterexample :
    (NewDataAccessLayer zeroRowStore).UpdateData freshConn "users" []
      = (none,
          { openStmts := 0,
            log := [.prepared 0 "UPDATE users SET '' WHERE id = $0", .executed 0 [],
              .closed 0] }) := by
  decide

/-- C8 (amended): `UpdateData` with no value has no build error: over any
store it submits the text of `buildUpdateQuery` for the empty list to the
store's prepare step, and what it returns is decided by the store alone, the
prepare error if the store rejects the text and else the error of the
execution, if any. -/
theorem UpdateData_no_values_reaches_store (dal : DataAccessLayer) (c : Conn)
    (tableName : String) :
    preparedTexts ((dal.UpdateData c tableName []).2.log.drop c.log.length)
        = [buildUpdateQuery tableName ([] : List Value)]
      ∧ PropagatesStoreErrors (dal.UpdateData c tableName []).1
        (dal.db.prepare c.log (buildUpdateQuery tableName ([] : List Value)))
        (execError (dal.db.exec
          (c.log ++ [.prepared c.log.length (buildUpdateQuery tableName ([] : List Value))])
          (buildUpdateQuery tableName ([] : List Value)) []))
        ((dal.UpdateData c tableName []).2.log.drop c.log.length) := by
  refine ⟨?_, UpdateData_eq dal c tableName [] ▸ runStatement_propagates dal c _ []⟩
  rw [UpdateData_eq, runStatement_eq]
  cases dal.db.prepare c.log (buildUpdateQuery tableName ([] : List Value)) <;>
    simp [preparedTexts]

/-- C9 (as stated, refuted): on a store that executes every statement with no
row affected, `UpdateData` and `DeleteData` return nil, as on a success. -/
theorem zero_rows_counterexample :
    zeroRowStore.exec [.prepared 0 (buildDeleteQuery "users")] (buildDeleteQuery "users")
        [Value.int 42]
        = .ok { lastInsertId := 0, rowsAffected := 0 }
      ∧ ((NewDataAccessLayer zeroRowStore).UpdateData freshConn "users"
          [Value.str "Jane Doe", Value.int 42]).1 = none
      ∧ ((NewDataAccessLayer zeroRowStore).DeleteData freshConn "users" 42).1 = none :=
  ⟨rfl, by decide, by decide⟩

/-- C9 (amended): `UpdateData` and `DeleteData` drop the result of the
execution.  Each of them, on its own: when the store prepares and executes
its statement, the operation returns nil whatever number of affected rows the
store reports, zero included. -/
theorem update_delete_ignore_rows_affected (dal : DataAccessLayer) (c : Conn)
    (tableName : String) (values : List Value) (id : Int) :
    (∀ res : Result,
        dal.db.prepare c.log (buildUpdateQuery tableName values) = none →
        dal.db.exec (c.log ++ [.prepared c.log.length (buildUpdateQuery tableName values)])
            (buildUpdateQuery tableName values) values = .ok res →
        (dal.UpdateData c tableName values).1 = none)
      ∧ (∀ res : Result,
        dal.db.prepare c.log (buildDeleteQuery tableName) = none →
        dal.db.exec (c.log ++ [.prepared c.log.length (buildDeleteQuery tableName)])
            (buildDeleteQuery tableName) [Value.int id] = .ok res →
        (dal.DeleteData c tableName id).1 = none) := by
  constructor
  · intro res hp he
    rw [UpdateData_eq, runStatement_eq, hp]
    simp [he, execError]
  · intro res hp he
    rw [DeleteData_eq, runStatement_eq, hp]
    simp [he, execError]

/-- The amended C9 at work: `UpdateData` on the store that reports no affected
row, and `DeleteData` on a store that rejects every UPDATE text and reports no
affected row for the rest. -/
theorem update_delete_ignore_rows_affected_witness :
    ((NewDataAccessLayer zeroRowStore).UpdateData freshConn "users"
        [Value.str "Jane Doe", Value.int 42]).1 = none
      ∧ updateRejectingStore.prepare freshConn.log
          (buildUpdateQuery "users" [Value.str "Jane Doe", Value.int 42])
        = some { text := "pq: syntax error at or near \"'$1, $2'\"" }
      ∧ ((NewDataAccessLayer updateRejectingStore).DeleteData freshConn "users" 42).1 = none :=
  ⟨(update_delete_ignore_rows_affected (NewDataAccessLayer zeroRowStore) freshConn "users"
      [Value.str "Jane Doe", Value.int 42] 42).1 { lastInsertId := 0, rowsAffected := 0 }
      rfl rfl,
    by decide,
    (update_delete_ignore_rows_affected (NewDataAccessLayer updateRejectingStore) freshConn
      "users" [Value.str "Jane Doe", Value.int 42] 42).2 { lastInsertId := 0, rowsAffected := 0 }
      (by decide) rfl⟩

/-! ## Claims about the gateway -/

/-- C4 (defect): on the body of the gateway scenario, `handleEvent` calls
`CreateData` with one value, the `Event` struct itself: the statement it
prepares is `INSERT INTO events VALUES ('$1')` and it is executed with that
single argument, not with the three values `1`, `click`, `x`. -/
theorem handleEvent_passes_event_whole :
    handleEvent sampleDecode (NewDataAccessLayer zeroRowStore) freshConn
        "\x7b\"id\":1,\"name\":\"click\",\"payload\":\"x\"\x7d"
      = ([.writeHeader 200, .write "Event received and stored successfully"],
          { openStmts := 0,
            log := [.prepared 0 "INSERT INTO events VALUES ('$1')",
              .executed 0 [Value.event { ID := 1, Name := "click", Payload := "x" }],
              .closed 0] })
      ∧ buildInsertQuery "events" [Value.int 1, Value.str "click", Value.str "x"]
        ≠ "INSERT INTO events VALUES ('$1')" := by
  decide

/-- C5: `handleEvent` answers by the decode result and the result of
`CreateData` alone.  When the body does not decode it replies through
`http.Error` with the decode error text and status 400 and leaves the
connection untouched; when the body decodes and `CreateData` returns an error
it replies through `http.Error` with status 500; when `CreateData` returns nil
it writes status 200 and the fixed confirmation text. -/
theorem handleEvent_outcomes (decode : String → Except Error Event) (dal : DataAccessLayer)
    (c : Conn) (body : String) :
    match decode body with
    | .error err =>
      handleEvent decode dal c body = ([.httpError err.text 400], c)
        ∧ responseStatus (handleEvent decode dal c body).1 = some 400
    | .ok event =>
      (handleEvent decode dal c body).2 = (dal.CreateData c "events" [Value.event event]).2
        ∧ match (dal.CreateData c "events" [Value.event event]).1 with
          | some err =>
            (handleEvent decode dal c body).1 = [.httpError err.text 500]
              ∧ responseStatus (handleEvent decode dal c body).1 = some 500
          | none =>
            (handleEvent decode dal c body).1
                = [.writeHeader 200, .write "Event received and stored successfully"]
              ∧ responseStatus (handleEvent decode dal c body).1 = some 200 := by
  unfold handleEvent
  cases decode body with
  | error err => exact ⟨rfl, rfl⟩
  | ok event =>
    simp only
    rcases hcd : dal.CreateData c "events" [Value.event event] with ⟨_ | err, c1⟩
    · exact ⟨rfl, rfl, rfl⟩
    · exact ⟨rfl, rfl, rfl⟩

end CDP
